import Mathlib

/-!
Verification of the Wisconsin sports RSS aggregator
(`wisco_core_teams_rss.py`).
The program is shallowly embedded: Python strings are `List Char`, Python
integers are `Int`, dates are integer day numbers (so that
`center + timedelta(days=offset)` is integer addition), and timestamps are
integer instants.  Fallible operations (network fetches, XML parsing,
timestamp parsing) are modelled by `Except`/`Option`-valued parameters, since
the program only inspects success or failure of those calls.
-/

namespace Wisco

/-! ## Definitions: the shallow embedding of the program -/

/-- Python strings, modelled as lists of characters. -/
abbrev Str := List Char

/-- Python `x or y` for an optional string value: `None` and `""` are falsy. -/
def strOr (x : Option Str) (y : Str) : Str :=
  match x with
  | none => y
  | some s => if s = [] then y else s

/-- Python `x or y` for an optional list value: `None` and `[]` are falsy. -/
def listOr {α : Type} (x : Option (List α)) (y : List α) : List α :=
  match x with
  | none => y
  | some l => if l.isEmpty then y else l

/-- Python `str.lower()` (only ASCII letters occur in the matched data). -/
def pyLower (s : Str) : Str := s.map Char.toLower

/-- Python's substring test `needle in hay`. -/
def containsSub (hay needle : Str) : Bool :=
  match hay with
  | [] => needle.isEmpty
  | c :: t => needle.isPrefixOf (c :: t) || containsSub t needle

/-- The `TEAM_MATCHERS` allow-list from the source. -/
def TEAM_MATCHERS : List Str :=
  [ "Green Bay Packers".toList, "Packers".toList, "GB".toList,
    "Milwaukee Bucks".toList, "Bucks".toList, "MIL".toList,
    "Milwaukee Brewers".toList, "Brewers".toList,
    "Wisconsin Badgers".toList, "Wisconsin".toList, "UW".toList,
    "UW–Madison".toList, "UW-Madison".toList ]

/-- `matches_team` from the source.  (`(name or "").lower()` equals
`name.lower()` for every string argument, so the `or ""` guard for `None`
collapses in this embedding, whose inputs are always strings.) -/
def matches_team (name : Str) : Bool :=
  TEAM_MATCHERS.any (fun key => containsSub (pyLower name) (pyLower key))

/-- Python's `range(a, b)` over integers, as a list. -/
def pyRange (a b : Int) : List Int :=
  (List.range (b - a).toNat).map (fun (i : Nat) => a + (i : Int))

/-- `date_range` from the source:
`span = max(days, 0); for offset in range(-span // 2, span // 2 + 1)`.
Python `//` is floor division, i.e. `Int.fdiv`, and the unary minus binds
tighter, so `-span // 2` is `Int.fdiv (-span) 2`. -/
def date_range (center : Int) (days : Int) : List Int :=
  (pyRange (Int.fdiv (-(max days 0)) 2) (Int.fdiv (max days 0) 2 + 1)).map
    (fun o => center + o)

/-- One character of `html.escape` (with its default `quote=True`), as the
source imports it; `Char.ofNat 39` is the apostrophe. -/
def escapeChar (c : Char) : Str :=
  if c = '&' then "&amp;".toList
  else if c = '<' then "&lt;".toList
  else if c = '>' then "&gt;".toList
  else if c = '"' then "&quot;".toList
  else if c = Char.ofNat 39 then "&#x27;".toList
  else [c]

/-- `html.escape` with `quote=True`: the sequential global replacements of the
library function coincide with this per-character map. -/
def escape (s : Str) : Str := (s.map escapeChar).flatten

/-- Entity decoding done by a conformant XML parser on text content, for the
entities `escape` can emit; a lone `&` is kept as-is. -/
def xmlUnescape : Str → Str
  | [] => []
  | c :: rest =>
    if c = '&' then
      if "amp;".toList.isPrefixOf rest then '&' :: xmlUnescape (rest.drop 4)
      else if "lt;".toList.isPrefixOf rest then '<' :: xmlUnescape (rest.drop 3)
      else if "gt;".toList.isPrefixOf rest then '>' :: xmlUnescape (rest.drop 3)
      else if "quot;".toList.isPrefixOf rest then '"' :: xmlUnescape (rest.drop 5)
      else if "#x27;".toList.isPrefixOf rest then Char.ofNat 39 :: xmlUnescape (rest.drop 5)
      else c :: xmlUnescape rest
    else c :: xmlUnescape rest
termination_by s => s.length
decreasing_by all_goals simp <;> omega

/-- The normalized feed-item shape produced by the normalizer and the news
ingester.  `pubTime` models the instant carried by the RFC-2822 `pubDate`
string of the Python dict (formatting and re-parsing that string is the
identity on the instant, which is all the program uses it for). -/
structure FeedItem where
  title : Str
  link : Str
  description : Str
  pubTime : Int
  guid : Str
  kind : Str
deriving DecidableEq

/-- The CDATA terminator `]]>`. -/
def cdataEnd : Str := "]]>".toList

def startsCdataEnd (s : Str) : Bool := cdataEnd.isPrefixOf s

/-- A conformant parser's reading of CDATA content: everything up to the
first `]]>`. -/
def cdataContent : Str → Str
  | [] => []
  | c :: rest => if startsCdataEnd (c :: rest) then [] else c :: cdataContent rest

/-- The `<description>` line emitted by `build_rss`:
`<description><![CDATA[{description}]]></description>`. -/
def descElem (d : Str) : Str :=
  "<description><![CDATA[".toList ++ d ++ "]]></description>".toList

/-- The parser's view of the `<description>` line: text content of the element
starting right after the 22-character prefix `<description><![CDATA[`. -/
def parseDesc (line : Str) : Str := cdataContent (line.drop 22)

/-- The seven lines `build_rss` emits per item; `fmt` models `format_datetime`
(RFC 2822 rendering of the instant), and `Char.ofNat 39` is the apostrophe of
`isPermaLink='false'`. -/
def itemLines (fmt : Int → Str) (it : FeedItem) : List Str :=
  [ "<item>".toList,
    "<title>".toList ++ escape it.title ++ "</title>".toList,
    "<link>".toList ++ escape it.link ++ "</link>".toList,
    "<guid isPermaLink=".toList ++ [Char.ofNat 39] ++ "false".toList ++
      [Char.ofNat 39] ++ ">".toList ++ escape it.guid ++ "</guid>".toList,
    "<pubDate>".toList ++ fmt it.pubTime ++ "</pubDate>".toList,
    descElem it.description,
    "</item>".toList ]

def RSS_TITLE : Str := "Wisconsin Sports (Core Teams)".toList

def RSS_LINK : Str := "https://www.espn.com/".toList

def RSS_DESC : Str := "Packers, Bucks, Brewers scores + UW Badgers scores & news.".toList

/-- `build_rss` from the source; `now_s` is the formatted current time used
for `lastBuildDate`. -/
def build_rss (fmt : Int → Str) (now_s : Str) (items : List FeedItem) : Str :=
  List.intercalate "\n".toList
    ([ "<?xml version=\"1.0\" encoding=\"UTF-8\"?>".toList,
       "<rss version=\"2.0\">".toList,
       "<channel>".toList,
       "<title>".toList ++ escape RSS_TITLE ++ "</title>".toList,
       "<link>".toList ++ escape RSS_LINK ++ "</link>".toList,
       "<description>".toList ++ escape RSS_DESC ++ "</description>".toList,
       "<lastBuildDate>".toList ++ now_s ++ "</lastBuildDate>".toList ]
     ++ (items.map (itemLines fmt)).flatten
     ++ [ "</channel>".toList, "</rss>".toList ])

/-- A feed item whose description is exactly the CDATA terminator. -/
def exBadItem : FeedItem :=
  { title := [], link := [], description := "]]>".toList,
    pubTime := 0, guid := [], kind := "news".toList }

/-- A feed item exercising every escaped character class. -/
def exRtItem : FeedItem :=
  { title := "A & B <i> \"q\"".toList, link := "https://x.test/?a=1&b=2".toList,
    description := "Packers vs Bears — Final".toList, pubTime := 0,
    guid := "401-NFL".toList, kind := "score".toList }

/-- The fields of the `team` sub-dict read by the normalizer; an absent key is
`none`. -/
structure Team where
  displayName : Option Str
  shortDisplayName : Option Str
  name : Option Str
  abbreviation : Option Str
deriving DecidableEq

structure Competitor where
  homeAway : Option Str
  team : Option Team
  score : Option Str
deriving DecidableEq

/-- The `status["type"]` sub-dict. -/
structure StatusType where
  state : Option Str
  shortDetail : Option Str
  detail : Option Str
deriving DecidableEq

structure Status where
  type : Option StatusType
deriving DecidableEq

structure Competition where
  competitors : Option (List Competitor)
  status : Option Status
deriving DecidableEq

structure GameLink where
  rel : Option (List Str)
  href : Option Str
deriving DecidableEq

structure Event where
  competitions : Option (List Competition)
  links : Option (List GameLink)
  shortLink : Option Str
  web : Option Str
  id : Option Str
  date : Option Str
deriving DecidableEq

/-- The empty dict `{}` used as fallback for a missing competition. -/
def emptyCompetition : Competition := ⟨none, none⟩

def emptyCompetitor : Competitor := ⟨none, none, none⟩

def emptyTeam : Team := ⟨none, none, none, none⟩

def emptyStatusType : StatusType := ⟨none, none, none⟩

/-- The preferred link kinds, in order: `("boxscore", "summary", "pbp", "recap")`. -/
def relNames : List Str :=
  ["boxscore".toList, "summary".toList, "pbp".toList, "recap".toList]

/-- The inner loop of `pick_game_link`: the first link whose `rel` list
contains `rel`. -/
def findRel (links : List GameLink) (rel : Str) : Option GameLink :=
  links.find? (fun l => (listOr l.rel []).any (fun r => decide (r = rel)))

/-- Python `if l.get("href")`. -/
def hasHref (l : GameLink) : Bool := !(strOr l.href []).isEmpty

/-- `pick_game_link` from the source. -/
def pick_game_link (event : Event) : Str :=
  let links := listOr event.links []
  match relNames.findSome?
      (fun rel => (findRel links rel).map (fun l => strOr l.href [])) with
  | some h => h
  | none =>
    match links.find? hasHref with
    | some l => strOr l.href []
    | none => strOr event.shortLink (strOr event.web ("https://www.espn.com/".toList))

/-- The link resolution exactly as the claim's sentence reads: rel preference
order, then the first link with any href, then the short-link field, then the
generic fallback URL — with no use of the event's `web` field. -/
def pick_game_link_specLiteral (event : Event) : Str :=
  let links := listOr event.links []
  match findRel links ("boxscore".toList) with
  | some l => strOr l.href []
  | none =>
  match findRel links ("summary".toList) with
  | some l => strOr l.href []
  | none =>
  match findRel links ("pbp".toList) with
  | some l => strOr l.href []
  | none =>
  match findRel links ("recap".toList) with
  | some l => strOr l.href []
  | none =>
  match links.find? hasHref with
  | some l => strOr l.href []
  | none => strOr event.shortLink ("https://www.espn.com/".toList)

/-- The amended resolution order: as the literal one, but with the event's
`web` field tried between the short-link field and the generic fallback. -/
def pick_game_link_specAmended (event : Event) : Str :=
  let links := listOr event.links []
  match findRel links ("boxscore".toList) with
  | some l => strOr l.href []
  | none =>
  match findRel links ("summary".toList) with
  | some l => strOr l.href []
  | none =>
  match findRel links ("pbp".toList) with
  | some l => strOr l.href []
  | none =>
  match findRel links ("recap".toList) with
  | some l => strOr l.href []
  | none =>
  match links.find? hasHref with
  | some l => strOr l.href []
  | none => strOr event.shortLink (strOr event.web ("https://www.espn.com/".toList))

/-- An event carrying only a `web` URL. -/
def exWebEvent : Event :=
  { competitions := none, links := none, shortLink := none,
    web := some ("https://www.example.com/game".toList), id := none, date := none }

/-- `comp = (event.get("competitions") or [{}])[0]`. -/
def compOf (ev : Event) : Competition :=
  (listOr ev.competitions [emptyCompetition]).headD emptyCompetition

/-- `competitors = comp.get("competitors") or []`. -/
def competitorsOf (ev : Event) : List Competitor :=
  listOr (compOf ev).competitors []

/-- `home = next((c for c in competitors if c.get("homeAway") == "home"), competitors[0])`. -/
def homeOf (competitors : List Competitor) : Competitor :=
  (competitors.find? (fun c => decide (c.homeAway = some ("home".toList)))).getD
    (competitors.headD emptyCompetitor)

/-- `away = next((c for c in competitors if c.get("homeAway") == "away"), competitors[-1])`. -/
def awayOf (competitors : List Competitor) : Competitor :=
  (competitors.find? (fun c => decide (c.homeAway = some ("away".toList)))).getD
    (competitors.getLastD emptyCompetitor)

/-- `team_label` from the source. -/
def team_label (c : Competitor) : Str :=
  let t := c.team.getD emptyTeam
  strOr t.displayName (strOr t.shortDisplayName (strOr t.name []))

/-- `abbr` from the source. -/
def abbr (c : Competitor) : Str :=
  strOr (c.team.getD emptyTeam).abbreviation []

/-- `status = (comp.get("status") or {}).get("type") or {}`. -/
def statusTypeOf (comp : Competition) : StatusType :=
  ((comp.status.getD ⟨none⟩).type).getD emptyStatusType

/-- `detail = status.get("shortDetail") or status.get("detail") or ""`. -/
def detailOf (comp : Competition) : Str :=
  strOr (statusTypeOf comp).shortDetail (strOr (statusTypeOf comp).detail [])

/-- `state_label = "Final" if state == "post" else ("Live" if state == "in" else "Preview")`. -/
def state_label (state : Option Str) : Str :=
  if state = some ("post".toList) then "Final".toList
  else if state = some ("in".toList) then "Live".toList
  else "Preview".toList

/-- The title format string of the source:
`f"{league_label} • {state_label}: {away_name} {away_score} @ {home_name} {home_score} ({detail})"`. -/
def titleOf (league_label : Str) (state : Option Str)
    (away_name away_score home_name home_score detail : Str) : Str :=
  league_label ++ " • ".toList ++ state_label state ++ ": ".toList ++
    away_name ++ " ".toList ++ away_score ++ " @ ".toList ++
    home_name ++ " ".toList ++ home_score ++ " (".toList ++ detail ++ ")".toList

/-- The publish-time computation: ISO-8601 parse of the event's `date` when
present and parseable (`parseIso`, with `none` for a raised exception),
otherwise the current time `now`. -/
def event_pubTime (parseIso : Str → Option Int) (now : Int) (date : Option Str) : Int :=
  match date with
  | none => now
  | some s => if s = [] then now else (parseIso s).getD now

/-- `event_to_item` from the source. -/
def event_to_item (parseIso : Str → Option Int) (now : Int)
    (event : Event) (league_label : Str) (live_final_only : Bool) :
    Option FeedItem :=
  let competitors := competitorsOf event
  if competitors.length < 2 then none
  else
    let home := homeOf competitors
    let away := awayOf competitors
    let home_name := team_label home
    let away_name := team_label away
    if ¬ (matches_team home_name = true ∨ matches_team away_name = true ∨
          matches_team (abbr home) = true ∨ matches_team (abbr away) = true) then none
    else
      let state := (statusTypeOf (compOf event)).state
      let detail := detailOf (compOf event)
      if live_final_only = true ∧
          ¬ (state = some ("in".toList) ∨ state = some ("post".toList)) then none
      else
        let home_score := strOr home.score ("0".toList)
        let away_score := strOr away.score ("0".toList)
        some
          { title := titleOf league_label state away_name away_score home_name home_score detail,
            link := pick_game_link event,
            description := escape away_name ++ " vs ".toList ++ escape home_name ++
              " — ".toList ++ escape detail,
            pubTime := event_pubTime parseIso now event.date,
            guid := strOr event.id [] ++ "-".toList ++ league_label,
            kind := "score".toList }

/-- The home side of a concrete finished Packers-at-Bears event. -/
def exCompHome : Competitor :=
  { homeAway := some ("home".toList),
    team := some { displayName := some ("Chicago Bears".toList),
                   shortDisplayName := none, name := none,
                   abbreviation := some ("CHI".toList) },
    score := some ("20".toList) }

def exCompAway : Competitor :=
  { homeAway := some ("away".toList),
    team := some { displayName := some ("Green Bay Packers".toList),
                   shortDisplayName := none, name := none,
                   abbreviation := some ("GB".toList) },
    score := some ("27".toList) }

/-- A concrete finished Packers-at-Bears event. -/
def exEvent : Event :=
  { competitions := some
      [ { competitors := some [exCompHome, exCompAway],
          status := some { type := some { state := some ("post".toList),
                                          shortDetail := some ("Final".toList),
                                          detail := none } } } ],
    links := none, shortLink := none, web := none,
    id := some ("401".toList), date := none }

/-- The feed item `event_to_item` produces for `exEvent` under label `NFL`. -/
def exScoreItem : FeedItem :=
  { title := "NFL • Final: Green Bay Packers 27 @ Chicago Bears 20 (Final)".toList,
    link := "https://www.espn.com/".toList,
    description := "Green Bay Packers vs Chicago Bears — Final".toList,
    pubTime := 0,
    guid := "401-NFL".toList,
    kind := "score".toList }

/-- The sort key order of `items.sort(key=..., reverse=True)`: `a` may come
before `b` iff `b`'s publish time is not larger. -/
def itemGE (a b : FeedItem) : Prop := b.pubTime ≤ a.pubTime

instance : DecidableRel itemGE :=
  fun a b => inferInstanceAs (Decidable (b.pubTime ≤ a.pubTime))

instance : IsTotal FeedItem itemGE :=
  ⟨fun a b => le_total b.pubTime a.pubTime⟩

instance : IsTrans FeedItem itemGE :=
  ⟨fun _ _ _ hab hbc => le_trans hbc hab⟩

/-- The merger's sort.  Python's `list.sort` is a stable sort; with
`reverse=True` it keeps the original relative order of equal keys, which is
exactly stable insertion sort with the `itemGE` order. -/
def sortItems (l : List FeedItem) : List FeedItem := List.insertionSort itemGE l

/-- The cap from `main`: `if args.max_items > 0: items = items[:args.max_items]`. -/
def truncate_items (max_items : Int) (l : List FeedItem) : List FeedItem :=
  if 0 < max_items then l.take max_items.toNat else l

/-- Five items already sorted newest-first. -/
def exFive : List FeedItem :=
  [ { title := [], link := [], description := [], pubTime := 5, guid := "5".toList, kind := [] },
    { title := [], link := [], description := [], pubTime := 4, guid := "4".toList, kind := [] },
    { title := [], link := [], description := [], pubTime := 3, guid := "3".toList, kind := [] },
    { title := [], link := [], description := [], pubTime := 2, guid := "2".toList, kind := [] },
    { title := [], link := [], description := [], pubTime := 1, guid := "1".toList, kind := [] } ]

/-- One `<item>` element of a fetched feed, as the four `findtext` reads see
it (`none` for a missing tag). -/
structure RawItem where
  title : Option Str
  link : Option Str
  description : Option Str
  pubDate : Option Str
deriving DecidableEq

/-- Python `str.strip()`. -/
def pyStrip (s : Str) : Str :=
  ((s.dropWhile Char.isWhitespace).reverse.dropWhile Char.isWhitespace).reverse

def intToStr (n : Int) : Str := (toString n).toList

/-- The body of the `<item>` loop in `parse_team_rss`: `parseRfc` models
`parsedate_to_datetime` (`none` for a raised exception, the value otherwise,
already normalized to UTC), `hashF` models Python's `hash`. -/
def rawToItem (parseRfc : Str → Option Int) (hashF : Str → Int) (now : Int)
    (feed_title : Str) (r : RawItem) : FeedItem :=
  let title := pyStrip (strOr r.title [])
  let link := pyStrip (strOr r.link [])
  let desc := pyStrip (strOr r.description [])
  let pub := strOr r.pubDate []
  { title := feed_title ++ ": ".toList ++ title,
    link := link,
    description := desc,
    pubTime := if pub = [] then now else (parseRfc pub).getD now,
    guid := "news-".toList ++ intToStr (hashF (feed_title ++ title ++ link ++ pub)),
    kind := "news".toList }

/-- The `<item>` loop with its post-append cap check
(`if len(items) >= max_items: break`); `count` is `len(items)` before the
append. -/
def collectNews (parseRfc : Str → Option Int) (hashF : Str → Int) (now : Int)
    (feed_title : Str) (max_items : Int) : List RawItem → Int → List FeedItem
  | [], _ => []
  | r :: rs, count =>
    let it := rawToItem parseRfc hashF now feed_title r
    if max_items ≤ count + 1 then [it]
    else it :: collectNews parseRfc hashF now feed_title max_items rs (count + 1)

/-- `parse_team_rss` from the source: `fetched` is the combined result of
`fetch_text` + `ET.fromstring` (`error` when either raises, otherwise the
document's list of `<item>` elements, empty when the feed has none). -/
def parse_team_rss (parseRfc : Str → Option Int) (hashF : Str → Int) (now : Int)
    (feed_title : Str) (fetched : Except Unit (List RawItem)) (max_items : Int) :
    List FeedItem :=
  match fetched with
  | Except.error _ => []
  | Except.ok raws => collectNews parseRfc hashF now feed_title max_items raws 0

/-- The news stage of `main`: each configured feed's items are appended in
turn to the accumulated list (`items.extend(parse_team_rss(...))`, with the
per-feed cap of 20). -/
def newsStage (parseRfc : Str → Option Int) (hashF : Str → Int) (now : Int)
    (feeds : List (Str × Except Unit (List RawItem))) (items : List FeedItem) :
    List FeedItem :=
  feeds.foldl
    (fun acc f => acc ++ parse_team_rss parseRfc hashF now f.1 f.2 20) items

/-- A raw news item. -/
def exRaw : RawItem :=
  { title := some (" Big win ".toList), link := some ("https://p.test/1".toList),
    description := some ("Recap".toList), pubDate := none }

/-! ## Theorems -/

theorem fdiv_two_eq (a : Int) : Int.fdiv a 2 = a / 2 :=
  Int.fdiv_eq_ediv a (by norm_num)

theorem mem_pyRange {a b x : Int} : x ∈ pyRange a b ↔ a ≤ x ∧ x < b := by
  unfold pyRange
  simp only [List.mem_map, List.mem_range]
  constructor
  · rintro ⟨i, hi, rfl⟩
    omega
  · rintro ⟨h1, h2⟩
    refine ⟨(x - a).toNat, by omega, by omega⟩

theorem length_pyRange (a b : Int) : (pyRange a b).length = (b - a).toNat := by
  unfold pyRange
  simp

theorem countP_range_ltI (m : Int) :
    ∀ n : Nat, (List.range n).countP (fun (i : Nat) => decide ((i : Int) < m)) =
      min n m.toNat
  | 0 => by simp
  | n + 1 => by
    rw [List.range_succ, List.countP_append, countP_range_ltI m n]
    by_cases h : (n : Int) < m <;>
      simp [List.countP_cons, h] <;> omega

theorem countP_range_gtI (m : Int) :
    ∀ n : Nat, (List.range n).countP (fun (i : Nat) => decide (m < (i : Int))) =
      n - min n (m + 1).toNat
  | 0 => by simp
  | n + 1 => by
    rw [List.range_succ, List.countP_append, countP_range_gtI m n]
    by_cases h : m < (n : Int) <;>
      simp [List.countP_cons, h] <;> omega

theorem countP_pyRange_lt (a b : Int) :
    (pyRange a b).countP (fun x => decide (x < 0)) =
      min (b - a).toNat (-a).toNat := by
  unfold pyRange
  rw [List.countP_map]
  have heq : ((fun x => decide (x < 0)) ∘ fun (i : Nat) => a + (i : Int)) =
      fun (i : Nat) => decide ((i : Int) < -a) := by
    funext i
    simp only [Function.comp]
    by_cases h : a + (i : Int) < 0
    · rw [decide_eq_true h, (decide_eq_true (by omega : (i : Int) < -a))]
    · rw [decide_eq_false h, decide_eq_false (by omega : ¬ (i : Int) < -a)]
  rw [heq, countP_range_ltI]

theorem countP_pyRange_gt (a b : Int) :
    (pyRange a b).countP (fun x => decide (0 < x)) =
      (b - a).toNat - min (b - a).toNat (-a + 1).toNat := by
  unfold pyRange
  rw [List.countP_map]
  have heq : ((fun x => decide (0 < x)) ∘ fun (i : Nat) => a + (i : Int)) =
      fun (i : Nat) => decide (-a < (i : Int)) := by
    funext i
    simp only [Function.comp]
    by_cases h : 0 < a + (i : Int)
    · rw [decide_eq_true h, decide_eq_true (by omega : -a < (i : Int))]
    · rw [decide_eq_false h, decide_eq_false (by omega : ¬ -a < (i : Int))]
  rw [heq, countP_range_gtI]

/-- C2: for every day-window size `d ≥ 0` and every reference date,
`date_range reference d` yields exactly `d + 1` dates, each of the form
`reference + offset` for exactly the integer offsets
`(-d) // 2 .. d // 2` inclusive (floor division), a window containing the
reference date itself. -/
theorem C2_date_range_window (ref d : Int) (hd : 0 ≤ d) :
    (date_range ref d).length = d.toNat + 1 ∧
    (∀ x : Int, x ∈ date_range ref d ↔
      ∃ o : Int, Int.fdiv (-d) 2 ≤ o ∧ o ≤ Int.fdiv d 2 ∧ x = ref + o) ∧
    ref ∈ date_range ref d := by
  have hmax : max d 0 = d := by omega
  have hmem : ∀ x : Int, x ∈ date_range ref d ↔
      ∃ o : Int, Int.fdiv (-d) 2 ≤ o ∧ o ≤ Int.fdiv d 2 ∧ x = ref + o := by
    intro x
    unfold date_range
    rw [hmax]
    simp only [List.mem_map]
    constructor
    · rintro ⟨o, ho, rfl⟩
      rw [mem_pyRange] at ho
      exact ⟨o, ho.1, by omega, rfl⟩
    · rintro ⟨o, h1, h2, rfl⟩
      exact ⟨o, mem_pyRange.mpr ⟨h1, by omega⟩, rfl⟩
  refine ⟨?_, hmem, ?_⟩
  · unfold date_range
    rw [hmax, List.length_map, length_pyRange, fdiv_two_eq, fdiv_two_eq]
    omega
  · rw [hmem ref]
    refine ⟨0, ?_, ?_, by omega⟩
    · rw [fdiv_two_eq]; omega
    · rw [fdiv_two_eq]; omega

/-- Witness for C2 at `ref = 10`, `d = 5`. -/
theorem C2_date_range_window_witness :
    (date_range 10 5).length = 5 + 1 ∧
    (∀ x : Int, x ∈ date_range 10 5 ↔
      ∃ o : Int, Int.fdiv (-5) 2 ≤ o ∧ o ≤ Int.fdiv 5 2 ∧ x = 10 + o) ∧
    (10 : Int) ∈ date_range 10 5 := by
  have h := C2_date_range_window 10 5 (by norm_num)
  simpa using h

/-- C10: for every negative day-window size `d < 0`, `date_range reference d`
yields exactly one date, the reference date itself (negative window sizes are
clamped to zero). -/
theorem C10_negative_days_clamped (ref d : Int) (hd : d < 0) :
    date_range ref d = [ref] := by
  have hmax : max d 0 = 0 := by omega
  unfold date_range
  rw [hmax]
  norm_num [pyRange, List.range_succ]

/-- Witness for C10 at `ref = 5`, `d = -3`. -/
theorem C10_negative_days_clamped_witness : date_range 5 (-3) = [5] :=
  C10_negative_days_clamped 5 (-3) (by norm_num)

/-- Counterexample to C1 as stated: for the even window size `days = 2` the
window is `[-1, 0, 1]` around the reference date `0` — the same number of
dates on each side of the reference date, i.e. symmetric, while the claim
asserts every even `days` yields one more date on one side. -/
theorem C1_counterexample :
    date_range 0 2 = [-1, 0, 1] ∧
    (date_range 0 2).countP (fun x => decide (x < 0)) =
      (date_range 0 2).countP (fun x => decide (0 < x)) := by
  constructor
  · rfl
  · rfl

/-- C1 (amended): an odd value of `days` produces an asymmetric window — one
more date before the reference date than after — while an even value of
`days` produces a symmetric window; the window is generated from the
floor-divided offsets `(-days) // 2 .. days // 2` inclusive (which is what
Python's `-days // 2` parses to). -/
theorem C1_amended_parity_asymmetry (ref d : Int) (hd : 0 ≤ d) :
    (d % 2 = 1 →
      (date_range ref d).countP (fun x => decide (x < ref)) =
        (date_range ref d).countP (fun x => decide (ref < x)) + 1) ∧
    (d % 2 = 0 →
      (date_range ref d).countP (fun x => decide (x < ref)) =
        (date_range ref d).countP (fun x => decide (ref < x))) := by
  have hmax : max d 0 = d := by omega
  have hlt : (date_range ref d).countP (fun x => decide (x < ref)) =
      min (Int.fdiv d 2 + 1 - Int.fdiv (-d) 2).toNat (-(Int.fdiv (-d) 2)).toNat := by
    unfold date_range
    rw [hmax, List.countP_map]
    have heq : ((fun x => decide (x < ref)) ∘ fun o : Int => ref + o) =
        fun o : Int => decide (o < 0) := by
      funext o
      simp only [Function.comp]
      by_cases h : ref + o < ref
      · rw [decide_eq_true h, decide_eq_true (by omega : o < 0)]
      · rw [decide_eq_false h, decide_eq_false (by omega : ¬ o < 0)]
    rw [heq, countP_pyRange_lt]
  have hgt : (date_range ref d).countP (fun x => decide (ref < x)) =
      (Int.fdiv d 2 + 1 - Int.fdiv (-d) 2).toNat -
        min (Int.fdiv d 2 + 1 - Int.fdiv (-d) 2).toNat (-(Int.fdiv (-d) 2) + 1).toNat := by
    unfold date_range
    rw [hmax, List.countP_map]
    have heq : ((fun x => decide (ref < x)) ∘ fun o : Int => ref + o) =
        fun o : Int => decide (0 < o) := by
      funext o
      simp only [Function.comp]
      by_cases h : ref < ref + o
      · rw [decide_eq_true h, decide_eq_true (by omega : 0 < o)]
      · rw [decide_eq_false h, decide_eq_false (by omega : ¬ 0 < o)]
    rw [heq, countP_pyRange_gt]
  rw [hlt, hgt, fdiv_two_eq, fdiv_two_eq]
  constructor
  · intro hodd; omega
  · intro heven; omega

/-- Witness for the amended C1, at `ref = 0` with odd `d = 5` and even
`d = 2`. -/
theorem C1_amended_parity_asymmetry_witness :
    ((date_range 0 5).countP (fun x => decide (x < 0)) =
      (date_range 0 5).countP (fun x => decide ((0 : Int) < x)) + 1) ∧
    ((date_range 0 2).countP (fun x => decide (x < 0)) =
      (date_range 0 2).countP (fun x => decide ((0 : Int) < x))) :=
  ⟨(C1_amended_parity_asymmetry 0 5 (by norm_num)).1 (by norm_num),
   (C1_amended_parity_asymmetry 0 2 (by norm_num)).2 (by norm_num)⟩

theorem containsSub_iff_isInfix (needle : Str) :
    ∀ hay : Str, containsSub hay needle = true ↔ needle <:+: hay := by
  intro hay
  induction hay with
  | nil =>
    simp [containsSub, List.isEmpty_iff]
  | cons c t ih =>
    simp only [containsSub, Bool.or_eq_true, ih,
       List.isPrefixOf_iff_prefix]
    exact (List.infix_cons_iff).symm

/-- C6: `matches_team` is case-insensitive and substring-based over the fixed
allow-list: it returns `true` iff the lowercased input contains some
lowercased allow-list entry; in particular it accepts
`"green bay packers"` and rejects `"Detroit Lions"`. -/
theorem C6_matches_team_characterisation :
    (∀ s : Str, matches_team s = true ↔
      ∃ k ∈ TEAM_MATCHERS, pyLower k <:+: pyLower s) ∧
    matches_team "green bay packers".toList = true ∧
    matches_team "Detroit Lions".toList = false := by
  refine ⟨?_, by decide, by decide⟩
  intro s
  simp only [matches_team, List.any_eq_true, containsSub_iff_isInfix]

theorem escape_cons (c : Char) (t : Str) :
    escape (c :: t) = escapeChar c ++ escape t := by
  simp [escape]

theorem xmlUnescape_escape (s : Str) : xmlUnescape (escape s) = s := by
  induction s with
  | nil => simp [escape, xmlUnescape]
  | cons c t ih =>
    rw [escape_cons]
    by_cases h1 : c = '&'
    · subst h1
      show xmlUnescape ('&' :: 'a' :: 'm' :: 'p' :: ';' :: escape t) = '&' :: t
      rw [xmlUnescape]
      simp [List.isPrefixOf, ih]
    by_cases h2 : c = '<'
    · subst h2
      show xmlUnescape ('&' :: 'l' :: 't' :: ';' :: escape t) = '<' :: t
      rw [xmlUnescape]
      simp [List.isPrefixOf, ih]
    by_cases h3 : c = '>'
    · subst h3
      show xmlUnescape ('&' :: 'g' :: 't' :: ';' :: escape t) = '>' :: t
      rw [xmlUnescape]
      simp [List.isPrefixOf, ih]
    by_cases h4 : c = '"'
    · subst h4
      show xmlUnescape ('&' :: 'q' :: 'u' :: 'o' :: 't' :: ';' :: escape t) = '"' :: t
      rw [xmlUnescape]
      simp [List.isPrefixOf, ih]
    by_cases h5 : c = Char.ofNat 39
    · subst h5
      show xmlUnescape ('&' :: '#' :: 'x' :: '2' :: '7' :: ';' :: escape t) = Char.ofNat 39 :: t
      rw [xmlUnescape]
      simp [List.isPrefixOf, ih]
    · have hc : escapeChar c = [c] := by
        simp [escapeChar, h1, h2, h3, h4, h5]
      rw [hc]
      show xmlUnescape (c :: escape t) = c :: t
      rw [xmlUnescape, if_neg h1, ih]

/-- The reserved characters `<`, `>` and `"` never survive `escape`
unescaped. -/
theorem escape_no_reserved (s : Str) :
    '<' ∉ escape s ∧ '>' ∉ escape s ∧ '"' ∉ escape s := by
  induction s with
  | nil => simp [escape]
  | cons c t ih =>
    rw [escape_cons]
    simp only [List.mem_append, not_or]
    obtain ⟨ih1, ih2, ih3⟩ := ih
    refine ⟨⟨?_, ih1⟩, ⟨?_, ih2⟩, ⟨?_, ih3⟩⟩ <;>
    · by_cases h1 : c = '&'
      · subst h1; decide
      by_cases h2 : c = '<'
      · subst h2; decide
      by_cases h3 : c = '>'
      · subst h3; decide
      by_cases h4 : c = '"'
      · subst h4; decide
      by_cases h5 : c = Char.ofNat 39
      · subst h5; decide
      · simp only [escapeChar, h1, h2, h3, h4, h5, if_false, List.mem_singleton]
        first
        | exact fun hx => h2 hx.symm
        | exact fun hx => h3 hx.symm
        | exact fun hx => h4 hx.symm

theorem startsCdataEnd_of_no_infix (c : Char) (t rest : Str)
    (h : ¬ cdataEnd <:+: (c :: t)) :
    startsCdataEnd ((c :: t) ++ cdataEnd ++ rest) = false := by
  match t with
  | [] =>
    simp [startsCdataEnd, cdataEnd, List.isPrefixOf]
  | [x] =>
    simp [startsCdataEnd, cdataEnd, List.isPrefixOf]
  | x :: y :: u =>
    by_cases hc : (']' : Char) = c
    · by_cases hx : (']' : Char) = x
      · by_cases hy : ('>' : Char) = y
        · exfalso
          exact h ⟨[], u, by simp [cdataEnd, ← hc, ← hx, ← hy]⟩
        · simp [startsCdataEnd, cdataEnd, List.isPrefixOf, hy]
      · simp [startsCdataEnd, cdataEnd, List.isPrefixOf, hx]
    · simp [startsCdataEnd, cdataEnd, List.isPrefixOf, hc]

/-- If the description holds no `]]>`, the parser recovers it exactly from the
CDATA section. -/
theorem cdata_roundtrip (rest : Str) :
    ∀ d : Str, ¬ cdataEnd <:+: d → cdataContent (d ++ cdataEnd ++ rest) = d := by
  intro d
  induction d with
  | nil =>
    intro _
    simp [cdataContent, startsCdataEnd, cdataEnd, List.isPrefixOf]
  | cons c t ih =>
    intro h
    have hstep : (c :: t) ++ cdataEnd ++ rest = c :: (t ++ cdataEnd ++ rest) := by
      simp
    rw [hstep, cdataContent]
    have hfalse := startsCdataEnd_of_no_infix c t rest h
    rw [hstep] at hfalse
    rw [hfalse]
    have hni : ¬ cdataEnd <:+: t := fun hinf => h (List.infix_cons hinf)
    simp only [if_false, Bool.false_eq_true]
    rw [ih hni]

/-- Counterexample to C3 as stated: the serializer wraps the description in a
CDATA section verbatim, so the description `"]]>"` is emitted as
`<![CDATA[]]>]]>`, from which a conformant parser does not recover the
original text (it reads the empty string up to the first `]]>`). -/
theorem C3_counterexample :
    (itemLines (fun _ => []) exBadItem)[5]? = some (descElem ("]]>".toList)) ∧
    parseDesc (descElem ("]]>".toList)) ≠ "]]>".toList := by
  constructor
  · rfl
  · decide

/-- C3 (amended): for every FeedItem, the text fields that `build_rss` escapes
(title, link, guid) round-trip exactly through a conformant parser's entity
decoding — no double-escaping and no unescaped reserved characters — and the
CDATA-wrapped description (the one free-text field not XML-escaped)
round-trips exactly provided it does not contain the substring `]]>`. -/
theorem C3_amended_roundtrip (it : FeedItem) (fmt : Int → Str)
    (h : ¬ cdataEnd <:+: it.description) :
    xmlUnescape (escape it.title) = it.title ∧
    xmlUnescape (escape it.link) = it.link ∧
    xmlUnescape (escape it.guid) = it.guid ∧
    parseDesc (descElem it.description) = it.description ∧
    (itemLines fmt it)[1]? = some ("<title>".toList ++ escape it.title ++ "</title>".toList) ∧
    (itemLines fmt it)[5]? = some (descElem it.description) ∧
    '<' ∉ escape it.title ∧ '>' ∉ escape it.title ∧ '"' ∉ escape it.title := by
  obtain ⟨hr1, hr2, hr3⟩ := escape_no_reserved it.title
  refine ⟨xmlUnescape_escape _, xmlUnescape_escape _, xmlUnescape_escape _,
    ?_, rfl, rfl, hr1, hr2, hr3⟩
  unfold parseDesc descElem
  have hdrop : ("<description><![CDATA[".toList ++
      (it.description ++ "]]></description>".toList)).drop 22 =
      it.description ++ "]]></description>".toList := by
    have hlen : ("<description><![CDATA[".toList).length = 22 := by decide
    rw [← hlen, List.drop_left]
  rw [List.append_assoc, hdrop]
  have hsplit : it.description ++ "]]></description>".toList =
      it.description ++ cdataEnd ++ "</description>".toList := by
    simp [cdataEnd]
  rw [hsplit]
  exact cdata_roundtrip _ it.description h

/-- Witness for the amended C3, for a title holding every special character,
a link with a query string, and a plain description. -/
theorem C3_amended_roundtrip_witness :
    xmlUnescape (escape ("A & B <i> \"q\"".toList)) = "A & B <i> \"q\"".toList ∧
    xmlUnescape (escape ("https://x.test/?a=1&b=2".toList)) = "https://x.test/?a=1&b=2".toList ∧
    xmlUnescape (escape ("401-NFL".toList)) = "401-NFL".toList ∧
    parseDesc (descElem ("Packers vs Bears — Final".toList)) = "Packers vs Bears — Final".toList ∧
    (itemLines (fun _ => []) exRtItem)[1]? =
      some ("<title>".toList ++ escape ("A & B <i> \"q\"".toList) ++ "</title>".toList) ∧
    (itemLines (fun _ => []) exRtItem)[5]? = some (descElem ("Packers vs Bears — Final".toList)) ∧
    '<' ∉ escape ("A & B <i> \"q\"".toList) ∧
    '>' ∉ escape ("A & B <i> \"q\"".toList) ∧
    '"' ∉ escape ("A & B <i> \"q\"".toList) :=
  C3_amended_roundtrip exRtItem (fun _ => []) (by decide)

/-- Counterexample to C7 as stated: for an event with no links and no
short-link but a `web` URL, the code returns the `web` URL, not the generic
fallback that the claim's chain (`...` then short-link, then generic) would
produce. -/
theorem C7_counterexample :
    pick_game_link exWebEvent = "https://www.example.com/game".toList ∧
    pick_game_link_specLiteral exWebEvent = "https://www.espn.com/".toList ∧
    pick_game_link exWebEvent ≠ pick_game_link_specLiteral exWebEvent := by
  refine ⟨rfl, rfl, ?_⟩
  decide

/-- C7 (amended): the canonical link is resolved by preference order
boxscore > summary > play-by-play > recap among the event's declared links;
if none of those rels is present it falls back to the first link having any
href, then to the event's short-link field, then to the event's `web` field,
then to the generic fallback URL. -/
theorem C7_amended_link_preference (ev : Event) :
    pick_game_link ev = pick_game_link_specAmended ev := by
  unfold pick_game_link pick_game_link_specAmended
  simp only [relNames, List.findSome?_cons]
  cases h1 : findRel (listOr ev.links []) ("boxscore".toList) with
  | some l => simp [Option.map_some]
  | none =>
  simp only [Option.map_none, List.findSome?_cons]
  cases h2 : findRel (listOr ev.links []) ("summary".toList) with
  | some l => simp [Option.map_some]
  | none =>
  simp only [Option.map_none, List.findSome?_cons]
  cases h3 : findRel (listOr ev.links []) ("pbp".toList) with
  | some l => simp [Option.map_some]
  | none =>
  simp only [Option.map_none, List.findSome?_cons]
  cases h4 : findRel (listOr ev.links []) ("recap".toList) with
  | some l => simp [Option.map_some]
  | none =>
  simp

/-- C4: every kept event's title is exactly
`<League> • <State>: <Away> <AwayScore> @ <Home> <HomeScore> (<StatusDetail>)`,
with state label `Final` for `post`, `Live` for `in`, and `Preview` for
`pre`. -/
theorem C4_title_format (parseIso : Str → Option Int) (now : Int)
    (ev : Event) (L : Str) (lfo : Bool) (it : FeedItem)
    (h : event_to_item parseIso now ev L lfo = some it) :
    it.title = titleOf L (statusTypeOf (compOf ev)).state
      (team_label (awayOf (competitorsOf ev)))
      (strOr (awayOf (competitorsOf ev)).score ("0".toList))
      (team_label (homeOf (competitorsOf ev)))
      (strOr (homeOf (competitorsOf ev)).score ("0".toList))
      (detailOf (compOf ev)) ∧
    state_label (some ("post".toList)) = "Final".toList ∧
    state_label (some ("in".toList)) = "Live".toList ∧
    state_label (some ("pre".toList)) = "Preview".toList := by
  refine ⟨?_, by decide, by decide, by decide⟩
  unfold event_to_item at h
  dsimp only at h
  split at h
  · exact absurd h (by simp)
  split at h
  · exact absurd h (by simp)
  split at h
  · exact absurd h (by simp)
  have := Option.some.inj h
  rw [← this]

/-- Witness for C4 at the concrete event `exEvent`. -/
theorem C4_title_format_witness :
    exScoreItem.title = titleOf ("NFL".toList) (statusTypeOf (compOf exEvent)).state
      (team_label (awayOf (competitorsOf exEvent)))
      (strOr (awayOf (competitorsOf exEvent)).score ("0".toList))
      (team_label (homeOf (competitorsOf exEvent)))
      (strOr (homeOf (competitorsOf exEvent)).score ("0".toList))
      (detailOf (compOf exEvent)) ∧
    state_label (some ("post".toList)) = "Final".toList ∧
    state_label (some ("in".toList)) = "Live".toList ∧
    state_label (some ("pre".toList)) = "Preview".toList :=
  C4_title_format (fun _ => none) 0 exEvent ("NFL".toList) false exScoreItem (by decide)

theorem filter_key_orderedInsert (a : FeedItem) (t : Int) :
    ∀ L : List FeedItem,
      (List.orderedInsert itemGE a L).filter (fun x => decide (x.pubTime = t)) =
        if a.pubTime = t
        then a :: L.filter (fun x => decide (x.pubTime = t))
        else L.filter (fun x => decide (x.pubTime = t))
  | [] => by
    by_cases hpa : a.pubTime = t <;> simp [List.orderedInsert, hpa]
  | b :: L => by
    by_cases hab : itemGE a b
    · rw [List.orderedInsert, if_pos hab]
      by_cases hpa : a.pubTime = t <;> simp [hpa]
    · rw [List.orderedInsert, if_neg hab]
      have hbgt : a.pubTime < b.pubTime := by
        have : ¬ b.pubTime ≤ a.pubTime := hab
        omega
      by_cases hpa : a.pubTime = t
      · have hbt : ¬ b.pubTime = t := by omega
        simp [List.filter_cons, hbt, hpa, filter_key_orderedInsert a t L]
      · simp [List.filter_cons, hpa, filter_key_orderedInsert a t L]

theorem filter_key_sortItems (t : Int) (l : List FeedItem) :
    (sortItems l).filter (fun x => decide (x.pubTime = t)) =
      l.filter (fun x => decide (x.pubTime = t)) := by
  induction l with
  | nil => rfl
  | cons a l ih =>
    have hins : sortItems (a :: l) = List.orderedInsert itemGE a (sortItems l) := by
      simp [sortItems, List.insertionSort]
    rw [hins, filter_key_orderedInsert]
    by_cases hpa : a.pubTime = t
    · rw [if_pos hpa, ih]
      simp [List.filter_cons, hpa]
    · rw [if_neg hpa, ih]
      simp [List.filter_cons, hpa]

/-- C5: the merger's sort orders the concatenated item list by publish time
descending, is a permutation of its input, and is stable: for every publish
time, the sublist of items carrying that time is unchanged; concretely,
publish times `T-1, T-3, T-2` come out as `T-1, T-2, T-3` and equal-time
items keep their insertion order. -/
theorem C5_sort_descending_stable :
    (∀ l : List FeedItem,
      List.Sorted itemGE (sortItems l) ∧
      (sortItems l).Perm l ∧
      (∀ t : Int, (sortItems l).filter (fun x => decide (x.pubTime = t)) =
        l.filter (fun x => decide (x.pubTime = t)))) ∧
    sortItems [ { title := [], link := [], description := [], pubTime := -1,
                  guid := "a".toList, kind := [] },
                { title := [], link := [], description := [], pubTime := -3,
                  guid := "b".toList, kind := [] },
                { title := [], link := [], description := [], pubTime := -2,
                  guid := "c".toList, kind := [] } ] =
              [ { title := [], link := [], description := [], pubTime := -1,
                  guid := "a".toList, kind := [] },
                { title := [], link := [], description := [], pubTime := -2,
                  guid := "c".toList, kind := [] },
                { title := [], link := [], description := [], pubTime := -3,
                  guid := "b".toList, kind := [] } ] ∧
    sortItems [ { title := [], link := [], description := [], pubTime := 7,
                  guid := "tie-first".toList, kind := "score".toList },
                { title := [], link := [], description := [], pubTime := 7,
                  guid := "tie-second".toList, kind := "news".toList } ] =
              [ { title := [], link := [], description := [], pubTime := 7,
                  guid := "tie-first".toList, kind := "score".toList },
                { title := [], link := [], description := [], pubTime := 7,
                  guid := "tie-second".toList, kind := "news".toList } ] := by
  refine ⟨?_, by decide, by decide⟩
  intro l
  exact ⟨List.sorted_insertionSort itemGE l, List.perm_insertionSort itemGE l,
    fun t => filter_key_sortItems t l⟩

/-- C8: a positive `max_items` keeps exactly the first `max_items` items of
the sorted list — the most recent ones, every kept item's publish time being
at least every dropped item's — while zero or negative disables truncation. -/
theorem C8_truncation (m : Int) (l : List FeedItem) :
    (m ≤ 0 → truncate_items m l = l) ∧
    (0 < m → truncate_items m l = l.take m.toNat ∧
      (truncate_items m l).length = min m.toNat l.length ∧
      (List.Sorted itemGE l →
        ∀ x ∈ truncate_items m l, ∀ y ∈ l.drop m.toNat, y.pubTime ≤ x.pubTime)) := by
  constructor
  · intro hm
    unfold truncate_items
    rw [if_neg (by omega)]
  · intro hm
    unfold truncate_items
    rw [if_pos hm]
    refine ⟨rfl, by simp, ?_⟩
    intro hs x hx y hy
    have hsplit : l.take m.toNat ++ l.drop m.toNat = l := List.take_append_drop _ _
    rw [← hsplit] at hs
    exact (List.pairwise_append.mp hs).2.2 x hx y hy

/-- Witness for C8: `max_items = 2` on five sorted items keeps exactly the
two most recent. -/
theorem C8_truncation_witness :
    truncate_items 2 exFive = exFive.take 2 ∧
    (truncate_items 2 exFive).length = min 2 exFive.length ∧
    (∀ x ∈ truncate_items 2 exFive, ∀ y ∈ exFive.drop 2, y.pubTime ≤ x.pubTime) ∧
    truncate_items 0 exFive = exFive :=
  ⟨((C8_truncation 2 exFive).2 (by norm_num)).1,
   ((C8_truncation 2 exFive).2 (by norm_num)).2.1,
   ((C8_truncation 2 exFive).2 (by norm_num)).2.2 (by decide),
   (C8_truncation 0 exFive).1 (by norm_num)⟩

theorem newsStage_prefix (parseRfc : Str → Option Int) (hashF : Str → Int)
    (now : Int) :
    ∀ (feeds : List (Str × Except Unit (List RawItem))) (acc : List FeedItem),
      acc <+: newsStage parseRfc hashF now feeds acc := by
  intro feeds
  induction feeds with
  | nil => exact fun _ => List.prefix_refl _
  | cons f fs ih =>
    intro acc
    have h1 : acc <+: acc ++ parse_team_rss parseRfc hashF now f.1 f.2 20 :=
      List.prefix_append _ _
    exact h1.trans (ih _)

/-- C9: a news feed whose fetch or XML parse fails, or which parses with zero
`<item>` elements, contributes zero FeedItems; the run is not aborted — the
remaining feeds are processed exactly as if the failing feed were absent —
and the items already collected stay an unchanged prefix of the result. -/
theorem C9_feed_failure_isolated (parseRfc : Str → Option Int) (hashF : Str → Int)
    (now : Int) (pre post : List (Str × Except Unit (List RawItem))) (ft : Str)
    (bad : Except Unit (List RawItem)) (acc : List FeedItem)
    (hbad : bad = Except.error () ∨ bad = Except.ok []) :
    parse_team_rss parseRfc hashF now ft bad 20 = [] ∧
    newsStage parseRfc hashF now (pre ++ (ft, bad) :: post) acc =
      newsStage parseRfc hashF now (pre ++ post) acc ∧
    acc <+: newsStage parseRfc hashF now (pre ++ (ft, bad) :: post) acc := by
  have hzero : parse_team_rss parseRfc hashF now ft bad 20 = [] := by
    rcases hbad with h | h <;> subst h <;> rfl
  refine ⟨hzero, ?_, newsStage_prefix parseRfc hashF now _ acc⟩
  unfold newsStage
  rw [List.foldl_append, List.foldl_append, List.foldl_cons, hzero, List.append_nil]

/-- Witness for C9: one healthy feed before, one after, a failing feed in the
middle, and one already-collected item. -/
theorem C9_feed_failure_isolated_witness :
    parse_team_rss (fun _ => none) (fun _ => 0) 0 ("Bucks News".toList)
      (Except.error ()) 20 = [] ∧
    newsStage (fun _ => none) (fun _ => 0) 0
      ([("Packers News".toList, Except.ok [exRaw])] ++
        ("Bucks News".toList, Except.error ()) ::
        [("Brewers News".toList, Except.ok [])]) [exScoreItem] =
      newsStage (fun _ => none) (fun _ => 0) 0
        ([("Packers News".toList, Except.ok [exRaw])] ++
          [("Brewers News".toList, Except.ok [])]) [exScoreItem] ∧
    [exScoreItem] <+: newsStage (fun _ => none) (fun _ => 0) 0
      ([("Packers News".toList, Except.ok [exRaw])] ++
        ("Bucks News".toList, Except.error ()) ::
        [("Brewers News".toList, Except.ok [])]) [exScoreItem] :=
  C9_feed_failure_isolated (fun _ => none) (fun _ => 0) 0
    [("Packers News".toList, Except.ok [exRaw])]
    [("Brewers News".toList, Except.ok [])]
    ("Bucks News".toList) (Except.error ()) [exScoreItem] (Or.inl rfl)

end Wisco
